import Mathlib

/-!
Verification of `src/common/utility.py` from the bitcoin_project repository:
a bulk-loader / inspector module over a PostgreSQL driver (psycopg), numpy
arrays and the `tabulate` text-table formatter.

Shallow embedding conventions:
* a numpy `ndarray` is a dtype tag, a shape (list of dimension sizes) and a
  flat row-major data list (`NDArray`);
* Python exceptions are an explicit error type (`PyError`); a function that
  can raise returns `Except PyError _`;
* the database reached through a connection string is an association list of
  named tables (`Database`); every model function also returns the list of
  driver interactions it performed (`DBEvent` trace: connection openings and
  executed SQL statement texts), so that claims about "no SQL issued before
  the precondition check" or "exactly one statement executed" are statable;
* text printed to stdout is returned as the success value of the dry-run
  validator (the Python function prints it and returns `None`).
-/

set_option autoImplicit false

namespace BitcoinUtility

/-- Scalar values stored in a numpy array cell or a database table cell.
The module only ever handles integer-like and string-like data. -/
inductive PyVal where
  | int : Int → PyVal
  | str : String → PyVal
deriving DecidableEq

/-- Dtype of a numpy array: integer-like (`int64`-style) or string-like
(`<U`-style). -/
inductive Dtype where
  | intD
  | strD
deriving DecidableEq

/-- Python exceptions raised by the module: `AssertionError` from the shape
asserts, `ValueError` from the dry-run checks, `TypeError` from the numpy
ufunc on a bad dtype, `IndexError` from indexing an empty metadata array,
and driver-level errors propagated from psycopg. -/
inductive PyError where
  | assertionError : String → PyError
  | valueError : String → PyError
  | typeError : String → PyError
  | indexError : String → PyError
  | driverError : String → PyError
deriving DecidableEq

/-- Model of `numpy.ndarray`: dtype, shape, and the elements in row-major
order. -/
structure NDArray where
  dtype : Dtype
  shape : List Nat
  data : List PyVal
deriving DecidableEq

/-- Check that one value matches the array dtype. -/
def dtypeOk : Dtype → PyVal → Bool
  | .intD, .int _ => true
  | .strD, .str _ => true
  | _, _ => false

/-- Well-formed ndarray: the flat data has exactly `shape.prod` elements and
every element matches the dtype (numpy arrays are homogeneous). -/
def NDArray.wf (a : NDArray) : Bool :=
  a.data.length == a.shape.prod && a.data.all (dtypeOk a.dtype)

/-- Python `str()` of one scalar, as applied by `ndarray.astype(str)`. -/
def pyStr : PyVal → String
  | .int n => toString n
  | .str s => s

/-- Python `repr` of a shape tuple, as interpolated into the assert message:
`()` for rank 0, `(3,)` for rank 1, `(2, 3)` otherwise. -/
def pyShapeRepr : List Nat → String
  | [] => "()"
  | [n] => "(" ++ toString n ++ ",)"
  | ns => "(" ++ String.intercalate ", " (ns.map toString) ++ ")"

/-- Message of the `AssertionError` raised by the 2-dimensionality asserts:
`Data must be 2-dimensional. Given: {shape} ({rank}-dimensional)`. -/
def shapeMsg (shape : List Nat) : String :=
  "Data must be 2-dimensional. Given: " ++ pyShapeRepr shape ++ " ("
    ++ toString shape.length ++ "-dimensional)"

/-- Message of the `TypeError` (numpy `UFuncTypeError`) raised by
`"'" + data + "'"` when the array dtype is not string-like. The exact numpy
wording also names the two dtypes; the model keeps the stable part. -/
def ufuncAddMsg : String :=
  "ufunc add did not contain a loop with signature matching types"

/-- Model of `"'" + data + "'"` on a numpy array: elementwise single-quote
wrapping for string dtype, a `TypeError` for any other dtype (numpy has no
`str + int` ufunc loop). -/
def quoteWrap (a : NDArray) : Except PyError NDArray :=
  match a.dtype with
  | .strD =>
      .ok { a with
        data := a.data.map (fun v =>
          match v with
          | .str s => .str ("'" ++ s ++ "'")
          | v => v) }
  | .intD => .error (.typeError ufuncAddMsg)

/-- Split a flat row-major list into `r` rows of `c` elements each: the row
iteration of a 2-D numpy array. -/
def chunkRows {α : Type} (r c : Nat) (xs : List α) : List (List α) :=
  match r with
  | 0 => []
  | Nat.succ r => xs.take c :: chunkRows r c (xs.drop c)

/-- Rows of a 2-D array after `astype(str)`: each element stringified. -/
def NDArray.strRows (a : NDArray) : List (List String) :=
  chunkRows (a.shape.getD 0 0) (a.shape.getD 1 0) (a.data.map pyStr)

/-- Model of `_prepare_for_insert(data, string_array)`: assert the array is
2-dimensional, optionally quote-wrap every value, then render each row as a
parenthesized comma-joined list of stringified values and join the rows with
commas. -/
def _prepare_for_insert (data : NDArray) (string_array : Bool) :
    Except PyError String :=
  if data.shape.length ≠ 2 then
    .error (.assertionError (shapeMsg data.shape))
  else
    match (if string_array then quoteWrap data else .ok data) with
    | .error e => .error e
    | .ok data_ =>
        .ok (String.intercalate ", "
          (data_.strRows.map (fun x => "(" ++ String.intercalate ", " x ++ ")")))

/-! ### Database model -/

/-- One row of `information_schema.columns` for a table: name, data type and
nullability of one column. -/
structure Column where
  column_name : String
  data_type : String
  is_nullable : String
deriving DecidableEq

/-- A stored table: its schema (ordered column descriptors) and its rows,
each row holding one value per column. -/
structure Table where
  schema : List Column
  rows : List (List PyVal)
deriving DecidableEq

/-- The database a connection string resolves to: an association list from
table name to table. -/
abbrev Database := List (String × Table)

/-- Look up a table by name. -/
def lookupTable : Database → String → Option Table
  | [], _ => none
  | (n, t) :: rest, name => if n = name then some t else lookupTable rest name

/-- Result of `SELECT column_name FROM information_schema.columns WHERE
table_name = '<table>'`, flattened: the column names of the table, empty when
the table is absent (or has no columns). -/
def infoSchemaColumns (db : Database) (table : String) : List String :=
  match lookupTable db table with
  | none => []
  | some t => t.schema.map Column.column_name

/-- Result rows of the three-field `information_schema.columns` query used by
the table describer: `[column_name, data_type, is_nullable]` per column. -/
def infoSchemaRows (db : Database) (table : String) : List (List String) :=
  match lookupTable db table with
  | none => []
  | some t => t.schema.map (fun c => [c.column_name, c.data_type, c.is_nullable])

/-- Driver interactions performed by a call: opening a connection with a
given connection string, and executing one SQL statement given by its text. -/
inductive DBEvent where
  | connect : String → DBEvent
  | execute : String → DBEvent
deriving DecidableEq

/-- Texts of the SQL statements executed in a trace, in order. -/
def executedSQL : List DBEvent → List String
  | [] => []
  | .execute s :: es => s :: executedSQL es
  | .connect _ :: es => executedSQL es

/-- Model of the external `tabulate(rows, headers, tablefmt="pipe")` call: a
pipe-delimited table with a header row, a separator row, and one line per
data row. (The real library pads cells to the column width; the model keeps
the cell texts and the row/column structure, which is what the spec claims
are about.) -/
def tabulate (rows : List (List String)) (headers : List String) : String :=
  String.intercalate "\n"
    (("| " ++ String.intercalate " | " headers ++ " |")
      :: ("|" ++ String.intercalate "|" (headers.map (fun _ => "---")) ++ "|")
      :: rows.map (fun r => "| " ++ String.intercalate " | " r ++ " |"))

/-! ### Insert executor and dry-run validator -/

/-- Model of `insert_into_db(conn_str, table, data, string_array)`: assert
2-dimensionality, build the values-list via `_prepare_for_insert`, then open
a connection and execute the single INSERT statement. Driver-side failures
of the INSERT itself (bad table, type mismatch) are outside the model: the
spec documents them as propagated unchanged. Returns the driver-event trace
and the call result. -/
def insert_into_db (conn_str : String) (table : String) (data : NDArray)
    (string_array : Bool) : List DBEvent × Except PyError Unit :=
  if data.shape.length ≠ 2 then
    ([], .error (.assertionError (shapeMsg data.shape)))
  else
    match _prepare_for_insert data string_array with
    | .error e => ([], .error e)
    | .ok insert_values =>
        ([.connect conn_str,
          .execute ("INSERT INTO " ++ table ++ " VALUES " ++ insert_values)],
         .ok ())

/-- Text of the column-name metadata query issued by the dry-run validator. -/
def schemaSQL (table : String) : String :=
  "SELECT column_name FROM information_schema.columns WHERE table_name = '"
    ++ table ++ "';"

/-- Message of the `ValueError` for a column-count mismatch. -/
def mismatchMsg (ncols ndata : Nat) : String :=
  "Number of columns (" ++ toString ncols
    ++ ") does not match the number of columns in data (" ++ toString ndata ++ ")"

/-- Message of the `ValueError` for a missing table. -/
def noTableMsg (table : String) : String :=
  "The table '" ++ table ++ "' does not exist"

/-- Text printed by a successful dry run: the target table name, the
tabulated preview rows under the column headers, and the confirmation. -/
def dryRunReport (table : String) (preview : List (List String))
    (cols : List String) : String :=
  "Insert values into " ++ table ++ ":\n" ++ tabulate preview cols
    ++ "\n\nInsertion shape is valid."

/-- Model of `dry_insert_into_db(conn_str, table, data)`: assert
2-dimensionality, query the live column list, fail if it is empty or if its
length differs from the array's column count, otherwise print a preview made
of the first 3 stringified rows plus one row of `...` placeholders. The
success value is the printed text (the Python function prints and returns
`None`). `db` is the database the connection string resolves to. -/
def dry_insert_into_db (conn_str : String) (db : Database) (table : String)
    (data : NDArray) : List DBEvent × Except PyError String :=
  if data.shape.length ≠ 2 then
    ([], .error (.assertionError (shapeMsg data.shape)))
  else
    let events := [DBEvent.connect conn_str, DBEvent.execute (schemaSQL table)]
    let cols := infoSchemaColumns db table
    if cols.length = 0 then
      (events, .error (.valueError (noTableMsg table)))
    else if cols.length ≠ data.shape.getD 1 0 then
      (events, .error (.valueError (mismatchMsg cols.length (data.shape.getD 1 0))))
    else
      (events,
       .ok (dryRunReport table
         (data.strRows.take 3 ++ [List.replicate cols.length "..."]) cols))

/-! ### Table describer -/

/-- Order on cell values as used by `ORDER BY`: integers by numeric order,
strings by lexicographic order; the mixed cases (which a single typed SQL
column never produces) are ordered int-before-str to keep the relation
total. -/
def pvLe : PyVal → PyVal → Bool
  | .int a, .int b => decide (a ≤ b)
  | .str a, .str b => decide (a ≤ b)
  | .int _, .str _ => true
  | .str _, .int _ => false

/-- Value of the order column in a row, given the column's index. -/
def rowKey (i : Nat) (row : List PyVal) : PyVal :=
  row.getD i (.int 0)

/-- Model of `SELECT * FROM t ORDER BY col ASC LIMIT 1`: the first row
holding the minimal order-column value (`none` on an empty table). Postgres
leaves the choice among ties unspecified; the model resolves ties to the
earlier row. -/
def minRowBy (i : Nat) : List (List PyVal) → Option (List PyVal)
  | [] => none
  | r :: rs =>
      match minRowBy i rs with
      | none => some r
      | some m => if pvLe (rowKey i r) (rowKey i m) then some r else some m

/-- Model of `SELECT * FROM t ORDER BY col DESC LIMIT 1`: the first row
holding the maximal order-column value (`none` on an empty table). -/
def maxRowBy (i : Nat) : List (List PyVal) → Option (List PyVal)
  | [] => none
  | r :: rs =>
      match maxRowBy i rs with
      | none => some r
      | some m => if pvLe (rowKey i m) (rowKey i r) then some r else some m

/-- Result rows of the boundary query: the ascending LIMIT 1 result followed
by the descending LIMIT 1 result (`UNION ALL` keeps duplicates). -/
def boundaryRows (i : Nat) (rows : List (List PyVal)) : List (List PyVal) :=
  (minRowBy i rows).toList ++ (maxRowBy i rows).toList

/-- Index of the order column among the schema's column names (`none` makes
the boundary query fail at driver level: unknown column). -/
def orderColIdx (schema : List Column) (oc : String) : Option Nat :=
  (schema.map Column.column_name).indexOf? oc

/-- Text of the three-field schema metadata query issued by the describer
(a Python triple-quoted f-string, whitespace included). -/
def describeSchemaSQL (table : String) : String :=
  "\n            SELECT \n               column_name, \n               data_type,\n               is_nullable\n            FROM\n               information_schema.columns\n            WHERE\n               table_name = '" ++ table ++ "';\n        "

/-- Text of the row-count query issued by the describer. -/
def countSQL (table : String) : String :=
  "SELECT COUNT(*) FROM \"" ++ table ++ "\""

/-- Text of the boundary-rows query issued by the describer. -/
def boundarySQL (table oc : String) : String :=
  "\n            (SELECT \n                *\n            FROM \"" ++ table ++ "\"\n            ORDER BY \"" ++ oc ++ "\" ASC\n            LIMIT 1)\n        \n            UNION ALL\n        \n            (SELECT \n                *\n            FROM \"" ++ table ++ "\"\n            ORDER BY \"" ++ oc ++ "\" DESC\n            LIMIT 1)\n        "

/-- Message of the `IndexError` raised by `arr[..., 0]` on the empty array
built from an empty `fetchall()` result. -/
def emptyIndexMsg : String :=
  "index 0 is out of bounds for axis 0 with size 0"

/-- Report composed by a successful `describe_table` call. -/
def describeReport (table : String) (schemaRows : List (List String))
    (cols : List String) (rowCount : Nat) (boundary : List (List PyVal)) :
    String :=
  "Table summary: " ++ table ++ "\n\n"
    ++ tabulate schemaRows ["column_name", "data_type", "is_nullable"] ++ "\n\n"
    ++ "With " ++ toString rowCount ++ " entiries\n\n"
    ++ "First & last being:\n"
    ++ tabulate (boundary.map (fun r => r.map pyStr)) cols

/-- Model of `describe_table(conn_str, table, order_column)`: one connection,
three queries. The schema metadata rows are fetched first; extracting the
column-name column from an empty result raises an `IndexError` before the
count and boundary queries are issued. An order column absent from the
schema makes the boundary query fail with a driver error. On success the
composed report is returned. -/
def describe_table (conn_str : String) (db : Database) (table : String)
    (order_column : String) : List DBEvent × Except PyError String :=
  let arr := infoSchemaRows db table
  let ev1 := [DBEvent.connect conn_str, DBEvent.execute (describeSchemaSQL table)]
  match lookupTable db table with
  | none => (ev1, .error (.indexError emptyIndexMsg))
  | some t =>
      if t.schema.length = 0 then
        (ev1, .error (.indexError emptyIndexMsg))
      else
        let cols := t.schema.map Column.column_name
        let ev3 := ev1 ++ [DBEvent.execute (countSQL table),
                           DBEvent.execute (boundarySQL table order_column)]
        match orderColIdx t.schema order_column with
        | none =>
            (ev3, .error (.driverError
              ("column \"" ++ order_column ++ "\" does not exist")))
        | some i =>
            (ev3, .ok (describeReport table arr cols t.rows.length
              (boundaryRows i t.rows)))

/-- Whitespace characters that may precede the SQL keyword in the emitted
query texts. -/
def isWS (ch : Char) : Bool := ch == ' ' || ch == '\n'

/-- Check that a statement text is a plain SELECT (possibly parenthesized,
after leading whitespace): the emitted read-only query shapes. -/
def isSelectQuery (s : String) : Bool :=
  let cs := s.data.dropWhile isWS
  List.isPrefixOf "SELECT".data cs || List.isPrefixOf "(SELECT".data cs

/-! ### Spec-side descriptions of the values-list output -/

/-- Spec-side cell grid of the values-list: the array's rows with every
element stringified, single-quoted exactly when the string flag is set. -/
def specCells (a : NDArray) (string_array : Bool) : List (List String) :=
  chunkRows (a.shape.getD 0 0) (a.shape.getD 1 0)
    (a.data.map (fun v =>
      if string_array then "'" ++ pyStr v ++ "'" else pyStr v))

/-- Spec-side rendering of a cell grid as a values-list: one parenthesized
comma-joined group per row, groups joined by commas. -/
def joinCells (cells : List (List String)) : String :=
  String.intercalate ", "
    (cells.map (fun x => "(" ++ String.intercalate ", " x ++ ")"))

/-! ### Helper lemmas -/

theorem chunkRows_length {α : Type} (r c : Nat) (xs : List α) :
    (chunkRows r c xs).length = r := by
  induction r generalizing xs with
  | zero => rfl
  | succ r ih => simp [chunkRows, ih]

theorem chunkRows_row_length {α : Type} (r c : Nat) (xs : List α)
    (h : xs.length = r * c) :
    ∀ row ∈ chunkRows r c xs, row.length = c := by
  induction r generalizing xs with
  | zero => intro row hrow; simp [chunkRows] at hrow
  | succ r ih =>
      intro row hrow
      rw [chunkRows] at hrow
      rcases List.mem_cons.mp hrow with hrow | hrow
      · subst hrow
        have hlen : c ≤ xs.length := by
          rw [h, Nat.succ_mul]; omega
        simp [List.length_take, Nat.min_eq_left hlen]
      · exact ih (xs.drop c) (by simp [h, Nat.succ_mul]) row hrow

theorem chunkRows_map {α β : Type} (f : α → β) (r c : Nat) (xs : List α) :
    chunkRows r c (xs.map f) = (chunkRows r c xs).map (List.map f) := by
  induction r generalizing xs with
  | zero => rfl
  | succ r ih =>
      rw [chunkRows, chunkRows, List.map_cons, ← List.map_take, ← List.map_drop, ih]

/-- Core computation of `_prepare_for_insert` on a 2-D array: when the
string flag is only set on a string-dtype array, the result is the rendered
spec-side cell grid. -/
theorem prepare_eq_cells (a : NDArray) (b : Bool) (r c : Nat)
    (hwf : a.wf = true) (hs : a.shape = [r, c])
    (hb : b = true → a.dtype = .strD) :
    _prepare_for_insert a b = .ok (joinCells (specCells a b)) := by
  have hlen : a.shape.length = 2 := by rw [hs]; rfl
  have hall : ∀ v ∈ a.data, dtypeOk a.dtype v = true := by
    have := (Bool.and_eq_true _ _).mp hwf
    exact List.all_eq_true.mp this.2
  cases b with
  | false =>
      simp [_prepare_for_insert, hlen, NDArray.strRows, specCells, joinCells]
  | true =>
      have hd : a.dtype = .strD := hb rfl
      have key : (a.data.map (fun v =>
          match v with
          | PyVal.str s => PyVal.str ("'" ++ s ++ "'")
          | v => v)).map pyStr = a.data.map (fun v => "'" ++ pyStr v ++ "'") := by
        rw [List.map_map]
        apply List.map_congr_left
        intro v hv
        have hv2 := hall v hv
        cases v with
        | int n => rw [hd] at hv2; simp [dtypeOk] at hv2
        | str s => rfl
      simp only [_prepare_for_insert, hlen, ne_eq, not_true_eq_false, if_false,
        quoteWrap, hd, NDArray.strRows, specCells, joinCells, if_true, ite_true]
      rw [key]

theorem specCells_length (a : NDArray) (b : Bool) (r c : Nat)
    (hs : a.shape = [r, c]) : (specCells a b).length = r := by
  simp [specCells, hs, chunkRows_length]

theorem specCells_row_length (a : NDArray) (b : Bool) (r c : Nat)
    (hwf : a.wf = true) (hs : a.shape = [r, c]) :
    ∀ row ∈ specCells a b, row.length = c := by
  have hdata : a.data.length = r * c := by
    have hc := (Bool.and_eq_true _ _).mp hwf
    have h1 : a.data.length = a.shape.prod := by simpa using hc.1
    rw [h1, hs]; simp
  intro row hrow
  rw [specCells, hs] at hrow
  exact chunkRows_row_length r c _ (by rw [List.length_map, hdata]) row hrow

theorem pvLe_refl (a : PyVal) : pvLe a a = true := by
  cases a <;> simp [pvLe]

theorem pvLe_total (a b : PyVal) : pvLe a b = true ∨ pvLe b a = true := by
  cases a with
  | int x =>
      cases b with
      | int y => simpa [pvLe] using Int.le_total x y
      | str _ => left; rfl
  | str x =>
      cases b with
      | int _ => right; rfl
      | str y => simpa [pvLe] using le_total x y

theorem pvLe_trans : ∀ {a b c : PyVal},
    pvLe a b = true → pvLe b c = true → pvLe a c = true
  | .int _, .int _, .int _, h1, h2 => by
      simp only [pvLe, decide_eq_true_eq] at *; omega
  | .int _, .int _, .str _, _, _ => rfl
  | .int _, .str _, .str _, _, _ => rfl
  | .int _, .str _, .int _, _, h2 => by simp [pvLe] at h2
  | .str _, .int _, _, h1, _ => by simp [pvLe] at h1
  | .str _, .str _, .int _, _, h2 => by simp [pvLe] at h2
  | .str x, .str y, .str z, h1, h2 => by
      simp only [pvLe, decide_eq_true_eq] at *
      exact le_trans h1 h2

theorem minRowBy_spec (i : Nat) (rows : List (List PyVal)) (hne : rows ≠ []) :
    ∃ m, minRowBy i rows = some m ∧ m ∈ rows ∧
      ∀ x ∈ rows, pvLe (rowKey i m) (rowKey i x) = true := by
  induction rows with
  | nil => exact absurd rfl hne
  | cons r rs ih =>
      by_cases hrs : rs = []
      · subst hrs
        exact ⟨r, rfl, List.mem_cons_self r [], by
          intro x hx
          rcases List.mem_cons.mp hx with hx | hx
          · subst hx; exact pvLe_refl _
          · simp at hx⟩
      · obtain ⟨m, hm, hmem, hbound⟩ := ih hrs
        by_cases hle : pvLe (rowKey i r) (rowKey i m) = true
        · refine ⟨r, ?_, List.mem_cons_self r rs, ?_⟩
          · simp [minRowBy, hm, hle]
          · intro x hx
            rcases List.mem_cons.mp hx with hx | hx
            · subst hx; exact pvLe_refl _
            · exact pvLe_trans hle (hbound x hx)
        · refine ⟨m, ?_, List.mem_cons_of_mem r hmem, ?_⟩
          · simp [minRowBy, hm, hle]
          · intro x hx
            rcases List.mem_cons.mp hx with hx | hx
            · have hmr : pvLe (rowKey i m) (rowKey i r) = true := by
                rcases pvLe_total (rowKey i r) (rowKey i m) with h | h
                · exact absurd h hle
                · exact h
              rw [hx]; exact hmr
            · exact hbound x hx

theorem maxRowBy_spec (i : Nat) (rows : List (List PyVal)) (hne : rows ≠ []) :
    ∃ m, maxRowBy i rows = some m ∧ m ∈ rows ∧
      ∀ x ∈ rows, pvLe (rowKey i x) (rowKey i m) = true := by
  induction rows with
  | nil => exact absurd rfl hne
  | cons r rs ih =>
      by_cases hrs : rs = []
      · subst hrs
        exact ⟨r, rfl, List.mem_cons_self r [], by
          intro x hx
          rcases List.mem_cons.mp hx with hx | hx
          · subst hx; exact pvLe_refl _
          · simp at hx⟩
      · obtain ⟨m, hm, hmem, hbound⟩ := ih hrs
        by_cases hle : pvLe (rowKey i m) (rowKey i r) = true
        · refine ⟨r, ?_, List.mem_cons_self r rs, ?_⟩
          · simp [maxRowBy, hm, hle]
          · intro x hx
            rcases List.mem_cons.mp hx with hx | hx
            · subst hx; exact pvLe_refl _
            · exact pvLe_trans (hbound x hx) hle
        · refine ⟨m, ?_, List.mem_cons_of_mem r hmem, ?_⟩
          · simp [maxRowBy, hm, hle]
          · intro x hx
            rcases List.mem_cons.mp hx with hx | hx
            · have hrm : pvLe (rowKey i r) (rowKey i m) = true := by
                rcases pvLe_total (rowKey i m) (rowKey i r) with h | h
                · exact absurd h hle
                · exact h
              rw [hx]; exact hrm
            · exact hbound x hx

/-- A statement whose text extends a concrete SELECT-starting prefix is
classified read-only regardless of the interpolated identifier suffix. -/
theorem isSelectQuery_append (pre rest : String)
    (h1 : (pre.data.dropWhile isWS).isEmpty = false)
    (h2 : List.isPrefixOf "SELECT".data (pre.data.dropWhile isWS) = true ∨
          List.isPrefixOf "(SELECT".data (pre.data.dropWhile isWS) = true) :
    isSelectQuery (pre ++ rest) = true := by
  unfold isSelectQuery
  rw [String.data_append, List.dropWhile_append, h1]
  simp only [Bool.false_eq_true, if_false, Bool.or_eq_true]
  rcases h2 with h2 | h2
  · left
    rw [List.isPrefixOf_iff_prefix] at h2 ⊢
    exact h2.trans (List.prefix_append _ _)
  · right
    rw [List.isPrefixOf_iff_prefix] at h2 ⊢
    exact h2.trans (List.prefix_append _ _)

theorem string_append_assoc (a b c : String) : a ++ b ++ c = a ++ (b ++ c) := by
  apply String.ext
  simp [List.append_assoc]

theorem isSelectQuery_describeSchemaSQL (t : String) :
    isSelectQuery (describeSchemaSQL t) = true := by
  rw [describeSchemaSQL, string_append_assoc]
  exact isSelectQuery_append _ _ (by decide) (Or.inl (by decide))

theorem isSelectQuery_countSQL (t : String) :
    isSelectQuery (countSQL t) = true := by
  rw [countSQL, string_append_assoc]
  exact isSelectQuery_append _ _ (by decide) (Or.inl (by decide))

theorem isSelectQuery_boundarySQL (t oc : String) :
    isSelectQuery (boundarySQL t oc) = true := by
  rw [boundarySQL]
  rw [string_append_assoc, string_append_assoc, string_append_assoc,
    string_append_assoc, string_append_assoc, string_append_assoc,
    string_append_assoc]
  exact isSelectQuery_append _ _ (by decide) (Or.inr (by decide))

/-! ### Concrete fixtures for witnesses -/

/-- Sample schema column. -/
def wcolA : Column := ⟨"ts", "bigint", "NO"⟩

/-- Sample schema column. -/
def wcolB : Column := ⟨"price", "bigint", "YES"⟩

/-- Sample two-column table with three rows, `ts` values unique. -/
def wtable : Table :=
  ⟨[wcolA, wcolB], [[.int 3, .int 30], [.int 1, .int 10], [.int 2, .int 20]]⟩

/-- Sample database holding one table named `btc`. -/
def wdb : Database := [("btc", wtable)]

/-- The 4×2 integer array of the spec's first formatter example. -/
def warr : NDArray :=
  ⟨.intD, [4, 2], [.int 1, .int 2, .int 3, .int 4, .int 5, .int 6, .int 7, .int 8]⟩

/-- The 1×2 string array of the spec's second formatter example. -/
def warrStr : NDArray := ⟨.strD, [1, 2], [.str "a", .str "b"]⟩

/-- A rank-1 integer array. -/
def warr1 : NDArray := ⟨.intD, [3], [.int 1, .int 2, .int 3]⟩

/-- A 1×1 integer array. -/
def warrInt1 : NDArray := ⟨.intD, [1, 1], [.int 1]⟩

/-! ### Claims -/

/-- C1: for every connection descriptor, existing target table and 2-D
array, the dry-run validator fails with a shape-mismatch `ValueError` naming
both column counts when the schema column count differs from the array's,
and with equal counts it succeeds and prints a preview holding at most the
first 3 stringified rows plus exactly one ellipsis row under the column
headers, followed by the `Insertion shape is valid.` confirmation. -/
theorem dry_insert_column_count_check (conn_str : String) (db : Database)
    (table : String) (a : NDArray) (r c : Nat) (hs : a.shape = [r, c])
    (hne : infoSchemaColumns db table ≠ []) :
    ((infoSchemaColumns db table).length ≠ c →
      (dry_insert_into_db conn_str db table a).2 =
        .error (.valueError (mismatchMsg (infoSchemaColumns db table).length c)))
    ∧ ((infoSchemaColumns db table).length = c →
      (dry_insert_into_db conn_str db table a).2 =
        .ok (dryRunReport table
          (a.strRows.take 3 ++ [List.replicate (infoSchemaColumns db table).length "..."])
          (infoSchemaColumns db table))
      ∧ (a.strRows.take 3).length ≤ 3) := by
  have hnz : ¬((infoSchemaColumns db table).length = 0) := by
    simpa [List.length_eq_zero] using hne
  constructor
  · intro hmm
    simp [dry_insert_into_db, hs, hnz, hmm]
  · intro heq
    have hnz' : ¬(c = 0) := by rw [← heq]; exact hnz
    refine ⟨?_, ?_⟩
    · simp [dry_insert_into_db, hs, heq, hnz']
    · exact List.length_take_le 3 _

theorem dry_insert_column_count_check_witness :
    (dry_insert_into_db "c" wdb "btc" warr).2 =
      .ok (dryRunReport "btc"
        (warr.strRows.take 3 ++ [List.replicate (infoSchemaColumns wdb "btc").length "..."])
        (infoSchemaColumns wdb "btc")) ∧
    (warr.strRows.take 3).length ≤ 3 :=
  (dry_insert_column_count_check "c" wdb "btc" warr 4 2 rfl (by decide)).2 rfl

/-- C2: for every 2-D array and every table name whose schema-metadata query
returns zero columns, the dry run fails with the `does not exist`
`ValueError`, having executed only the metadata query — regardless of the
array's column count, hence before any column-count comparison. -/
theorem dry_insert_missing_table (conn_str : String) (db : Database)
    (table : String) (a : NDArray) (r c : Nat) (hs : a.shape = [r, c])
    (hcols : infoSchemaColumns db table = []) :
    dry_insert_into_db conn_str db table a =
      ([.connect conn_str, .execute (schemaSQL table)],
       .error (.valueError (noTableMsg table))) := by
  have hlen : a.shape.length = 2 := by rw [hs]; rfl
  simp [dry_insert_into_db, hlen, hcols]

theorem dry_insert_missing_table_witness :
    dry_insert_into_db "c" [] "nope" warr =
      ([.connect "c", .execute (schemaSQL "nope")],
       .error (.valueError (noTableMsg "nope"))) :=
  dry_insert_missing_table "c" [] "nope" warr 4 2 rfl rfl

/-- C3 (corrected): the claim fails as stated because the flag-on path
raises a `TypeError` on non-string dtypes instead of returning a quoted
values-list: with the string flag on and an integer array, no string is
returned at all. -/
theorem prepare_flag_on_nonstring_counterexample :
    _prepare_for_insert warrInt1 true = .error (.typeError ufuncAddMsg) := rfl

/-- C3 (amended): for every well-formed r×c array, the formatter returns
exactly r parenthesized groups of c comma-joined stringified elements, every
value single-quoted exactly when the string flag is on — provided the flag
is only set on string-dtype arrays (otherwise a `TypeError` is raised, see
the dtype-gate claim). -/
theorem prepare_values_list_structure (a : NDArray) (b : Bool) (r c : Nat)
    (hwf : a.wf = true) (hs : a.shape = [r, c])
    (hb : b = true → a.dtype = .strD) :
    _prepare_for_insert a b = .ok (joinCells (specCells a b)) ∧
    (specCells a b).length = r ∧
    ∀ row ∈ specCells a b, row.length = c :=
  ⟨prepare_eq_cells a b r c hwf hs hb, specCells_length a b r c hs,
   specCells_row_length a b r c hwf hs⟩

theorem prepare_values_list_structure_witness :
    _prepare_for_insert warrStr true = .ok (joinCells (specCells warrStr true)) ∧
    (specCells warrStr true).length = 1 ∧
    ∀ row ∈ specCells warrStr true, row.length = 2 :=
  prepare_values_list_structure warrStr true 1 2 (by decide) rfl (fun _ => rfl)

/-- C4: the formatter maps the integer array `[[1,2],[3,4],[5,6],[7,8]]`
with the flag off to exactly `(1, 2), (3, 4), (5, 6), (7, 8)`, and the
string array `[["a","b"]]` with the flag on to exactly `('a', 'b')`. -/
theorem prepare_concrete_examples :
    _prepare_for_insert warr false = .ok "(1, 2), (3, 4), (5, 6), (7, 8)" ∧
    _prepare_for_insert warrStr true = .ok "('a', 'b')" :=
  ⟨rfl, rfl⟩

/-- C5: for every array whose rank is not 2 and either flag value, the
formatter fails with the shape-precondition `AssertionError` and produces no
output string. -/
theorem prepare_rank_precondition (a : NDArray) (b : Bool)
    (h : a.shape.length ≠ 2) :
    _prepare_for_insert a b = .error (.assertionError (shapeMsg a.shape)) := by
  simp [_prepare_for_insert, h]

theorem prepare_rank_precondition_witness :
    _prepare_for_insert warr1 false = .error (.assertionError (shapeMsg [3])) :=
  prepare_rank_precondition warr1 false (by decide)

/-- C6: whenever the value-list formatter produces a string for the given
array and flag, the insert executor opens one connection and executes
exactly one SQL statement, whose text is `INSERT INTO <table> VALUES `
followed by that exact string. -/
theorem insert_single_statement (conn_str table : String) (a : NDArray)
    (b : Bool) (s : String) (hp : _prepare_for_insert a b = .ok s) :
    insert_into_db conn_str table a b =
      ([.connect conn_str,
        .execute ("INSERT INTO " ++ table ++ " VALUES " ++ s)], .ok ())
    ∧ executedSQL (insert_into_db conn_str table a b).1 =
      ["INSERT INTO " ++ table ++ " VALUES " ++ s] := by
  have hlen : a.shape.length = 2 := by
    by_contra h
    unfold _prepare_for_insert at hp
    rw [if_pos h] at hp
    exact Except.noConfusion hp
  refine ⟨?_, ?_⟩
  · simp [insert_into_db, hlen, hp]
  · simp [insert_into_db, hlen, hp, executedSQL]

theorem insert_single_statement_witness :
    insert_into_db "c" "btc" warr false =
      ([.connect "c",
        .execute ("INSERT INTO " ++ "btc" ++ " VALUES " ++ "(1, 2), (3, 4), (5, 6), (7, 8)")], .ok ())
    ∧ executedSQL (insert_into_db "c" "btc" warr false).1 =
      ["INSERT INTO " ++ "btc" ++ " VALUES " ++ "(1, 2), (3, 4), (5, 6), (7, 8)"] :=
  insert_single_statement "c" "btc" warr false "(1, 2), (3, 4), (5, 6), (7, 8)" rfl

/-- C7: for every array of rank other than 2, both the insert executor and
the dry-run validator fail with the shape-precondition `AssertionError`
with an empty driver trace: no connection is opened and no SQL statement is
issued. -/
theorem rank_check_before_any_db_interaction (conn_str : String)
    (db : Database) (table : String) (a : NDArray) (b : Bool)
    (h : a.shape.length ≠ 2) :
    insert_into_db conn_str table a b =
      ([], .error (.assertionError (shapeMsg a.shape)))
    ∧ dry_insert_into_db conn_str db table a =
      ([], .error (.assertionError (shapeMsg a.shape))) := by
  constructor
  · simp [insert_into_db, h]
  · simp [dry_insert_into_db, h]

theorem rank_check_before_any_db_interaction_witness :
    insert_into_db "c" "btc" warr1 false =
      ([], .error (.assertionError (shapeMsg [3])))
    ∧ dry_insert_into_db "c" wdb "btc" warr1 =
      ([], .error (.assertionError (shapeMsg [3]))) :=
  rank_check_before_any_db_interaction "c" wdb "btc" warr1 false (by decide)

/-- C8: for every database, table present with a nonempty schema and at
least one row, and order column present in the schema with pairwise-distinct
values, the describer returns the single composed report — table-name
header, schema table, row-count sentence, boundary-rows table — whose
boundary section holds exactly 2 rows: a row with the globally minimal and a
row with the globally maximal order-column value; and every executed SQL
statement is a plain SELECT, so no mutating SQL is run. -/
theorem describe_table_report_spec (conn_str : String) (db : Database)
    (table oc : String) (t : Table) (i : Nat)
    (ht : lookupTable db table = some t) (hsc : t.schema ≠ [])
    (hrows : t.rows ≠ []) (hi : orderColIdx t.schema oc = some i)
    (_huniq : t.rows.Pairwise (fun x y => rowKey i x ≠ rowKey i y)) :
    ∃ rmin rmax,
      rmin ∈ t.rows ∧ rmax ∈ t.rows ∧
      (∀ row ∈ t.rows,
        pvLe (rowKey i rmin) (rowKey i row) = true ∧
        pvLe (rowKey i row) (rowKey i rmax) = true) ∧
      boundaryRows i t.rows = [rmin, rmax] ∧
      describe_table conn_str db table oc =
        ([.connect conn_str, .execute (describeSchemaSQL table),
          .execute (countSQL table), .execute (boundarySQL table oc)],
         .ok (describeReport table (infoSchemaRows db table)
           (t.schema.map Column.column_name) t.rows.length [rmin, rmax])) ∧
      ∀ q ∈ executedSQL (describe_table conn_str db table oc).1,
        isSelectQuery q = true := by
  obtain ⟨rmin, hminEq, hminMem, hminLe⟩ := minRowBy_spec i t.rows hrows
  obtain ⟨rmax, hmaxEq, hmaxMem, hmaxLe⟩ := maxRowBy_spec i t.rows hrows
  have hbd : boundaryRows i t.rows = [rmin, rmax] := by
    simp [boundaryRows, hminEq, hmaxEq]
  have hscn : ¬(t.schema.length = 0) := by
    simpa [List.length_eq_zero] using hsc
  have harr : infoSchemaRows db table =
      t.schema.map (fun c => [c.column_name, c.data_type, c.is_nullable]) := by
    simp [infoSchemaRows, ht]
  have htr : describe_table conn_str db table oc =
      ([.connect conn_str, .execute (describeSchemaSQL table),
        .execute (countSQL table), .execute (boundarySQL table oc)],
       .ok (describeReport table (infoSchemaRows db table)
         (t.schema.map Column.column_name) t.rows.length [rmin, rmax])) := by
    simp [describe_table, ht, hscn, hi, hbd, harr]
  refine ⟨rmin, rmax, hminMem, hmaxMem,
    fun row hr => ⟨hminLe row hr, hmaxLe row hr⟩, hbd, htr, ?_⟩
  rw [htr]
  intro q hq
  simp only [executedSQL, List.mem_cons, List.not_mem_nil, or_false] at hq
  rcases hq with rfl | rfl | rfl
  · exact isSelectQuery_describeSchemaSQL table
  · exact isSelectQuery_countSQL table
  · exact isSelectQuery_boundarySQL table oc

theorem describe_table_report_spec_witness :
    ∃ rmin rmax,
      rmin ∈ wtable.rows ∧ rmax ∈ wtable.rows ∧
      (∀ row ∈ wtable.rows,
        pvLe (rowKey 0 rmin) (rowKey 0 row) = true ∧
        pvLe (rowKey 0 row) (rowKey 0 rmax) = true) ∧
      boundaryRows 0 wtable.rows = [rmin, rmax] ∧
      describe_table "c" wdb "btc" "ts" =
        ([.connect "c", .execute (describeSchemaSQL "btc"),
          .execute (countSQL "btc"), .execute (boundarySQL "btc" "ts")],
         .ok (describeReport "btc" (infoSchemaRows wdb "btc")
           (wtable.schema.map Column.column_name) wtable.rows.length [rmin, rmax])) ∧
      ∀ q ∈ executedSQL (describe_table "c" wdb "btc" "ts").1,
        isSelectQuery q = true :=
  describe_table_report_spec "c" wdb "btc" "ts" wtable 0 (by decide) (by decide)
    (by decide) (by decide) (by decide)

/-- C9: for every connection descriptor and table name whose schema-metadata
query returns zero rows, the describer raises the `IndexError` from indexing
the empty metadata array after executing only the metadata query — so the
row-count and boundary queries are never issued — and it does not produce
the descriptive `does not exist` `ValueError` that the dry-run validator
gives for the same situation. -/
theorem describe_table_empty_metadata (conn_str : String) (db : Database)
    (table oc : String) (h : infoSchemaRows db table = []) :
    describe_table conn_str db table oc =
      ([.connect conn_str, .execute (describeSchemaSQL table)],
       .error (.indexError emptyIndexMsg))
    ∧ ∀ m, (describe_table conn_str db table oc).2 ≠
        .error (.valueError m) := by
  have key : describe_table conn_str db table oc =
      ([.connect conn_str, .execute (describeSchemaSQL table)],
       .error (.indexError emptyIndexMsg)) := by
    cases hl : lookupTable db table with
    | none => simp [describe_table, hl]
    | some t =>
        have h2 := h
        simp only [infoSchemaRows, hl, List.map_eq_nil_iff] at h2
        simp [describe_table, hl, h2]
  refine ⟨key, ?_⟩
  rw [key]
  intro m
  simp

theorem describe_table_empty_metadata_witness :
    describe_table "c" [] "nope" "ts" =
      ([.connect "c", .execute (describeSchemaSQL "nope")],
       .error (.indexError emptyIndexMsg))
    ∧ ∀ m, (describe_table "c" [] "nope" "ts").2 ≠
        .error (.valueError m) :=
  describe_table_empty_metadata "c" [] "nope" "ts" rfl

/-- C10: with the string flag on, the quote characters are concatenated
onto the array itself before stringification, so on every well-formed 2-D
array the flag-on call raises a `TypeError` when the dtype is not
string-like, and succeeds (with every value quoted) exactly on string-dtype
arrays. -/
theorem prepare_flag_on_dtype_gate (a : NDArray) (r c : Nat)
    (hwf : a.wf = true) (hs : a.shape = [r, c]) :
    (a.dtype = .intD →
      _prepare_for_insert a true = .error (.typeError ufuncAddMsg))
    ∧ (a.dtype = .strD →
      _prepare_for_insert a true = .ok (joinCells (specCells a true))) := by
  constructor
  · intro hd
    simp [_prepare_for_insert, hs, quoteWrap, hd]
  · intro hd
    exact prepare_eq_cells a true r c hwf hs (fun _ => hd)

theorem prepare_flag_on_dtype_gate_witness :
    (_prepare_for_insert warrInt1 true = .error (.typeError ufuncAddMsg))
    ∧ (_prepare_for_insert warrStr true = .ok (joinCells (specCells warrStr true))) :=
  ⟨(prepare_flag_on_dtype_gate warrInt1 1 1 (by decide) rfl).1 rfl,
   (prepare_flag_on_dtype_gate warrStr 1 2 (by decide) rfl).2 rfl⟩

end BitcoinUtility
